/-
Verification of the Wilson-Cowan parameter-initialization module
(neurolib/models/wc_input/loadDefaultParams.py).

Matrices are embedded as lists of rows of rationals (numpy float arrays,
modelled with exact arithmetic).  The two functions of the module,
`loadDefaultParams` and `computeDelayMatrix`, are translated below.
-/
import Mathlib

/-- A numeric matrix: a list of rows. -/
abbrev Mat := List (List ℚ)

/-- Elementwise map over a matrix (numpy broadcasting of a scalar op). -/
def matMap (f : ℚ → ℚ) (m : Mat) : Mat :=
  m.map (fun row => row.map f)

/-- Entry `(i, j)` of a matrix, with 0 past the bounds. -/
def getEntry (m : Mat) (i j : ℕ) : ℚ :=
  (m.getD i []).getD j 0

/-- All entries of the matrix are non-negative. -/
def matAllNonneg (m : Mat) : Prop :=
  ∀ row ∈ m, ∀ x ∈ row, 0 ≤ x

instance (m : Mat) : Decidable (matAllNonneg m) := by
  unfold matAllNonneg; infer_instance

/-- An all-zero matrix of shape `n × k`. -/
def zerosMat (n k : ℕ) : Mat :=
  List.replicate n (List.replicate k 0)

/-- `computeDelayMatrix(lengthMat, signalV, segmentLength)` from the source.
`segmentLength` defaults to 1 at the call sites of the source; it is passed
explicitly here.

    normalizedLenMat = lengthMat * segmentLength
    if signalV > 0:
        Dmat = normalizedLenMat / signalV
    else:
        Dmat = lengthMat * 0.0
    return Dmat
-/
def computeDelayMatrix (lengthMat : Mat) (signalV : ℚ) (segmentLength : ℚ) : Mat :=
  let normalizedLenMat := matMap (fun x => x * segmentLength) lengthMat
  if signalV > 0 then
    matMap (fun x => x / signalV) normalizedLenMat
  else
    matMap (fun x => x * 0) lengthMat

/-- C1: for `signalV > 0`, `computeDelayMatrix` is elementwise
`lengthMat * segmentLength / signalV`. -/
theorem computeDelayMatrix_linear (lengthMat : Mat) (signalV segmentLength : ℚ)
    (hv : 0 < signalV) :
    computeDelayMatrix lengthMat signalV segmentLength =
      matMap (fun x => x * segmentLength / signalV) lengthMat := by
  simp [computeDelayMatrix, if_pos hv, matMap, List.map_map, Function.comp]

/-- C1 witness: the concrete scenario `lengthMat = [[0,10],[10,0]]`,
`signalV = 20`, `segmentLength = 1` gives `[[0, 1/2],[1/2, 0]]`. -/
theorem computeDelayMatrix_linear_witness :
    computeDelayMatrix [[0, 10], [10, 0]] 20 1 =
        matMap (fun x => x * 1 / 20) [[0, 10], [10, 0]] ∧
      computeDelayMatrix [[0, 10], [10, 0]] 20 1 = [[0, 1/2], [1/2, 0]] :=
  ⟨computeDelayMatrix_linear [[0, 10], [10, 0]] 20 1 (by norm_num),
   by norm_num [computeDelayMatrix, matMap]⟩

/-- C4: for `signalV ≤ 0` (zero or negative), `computeDelayMatrix` returns the
all-zero matrix of the same shape as `lengthMat`. -/
theorem computeDelayMatrix_disabled (lengthMat : Mat) (signalV segmentLength : ℚ)
    (hv : signalV ≤ 0) :
    computeDelayMatrix lengthMat signalV segmentLength =
      matMap (fun _ => 0) lengthMat := by
  simp [computeDelayMatrix, if_neg (not_lt.mpr hv), matMap]

/-- C4 witness: at `lengthMat = [[1,2],[3,4]]`, `signalV = -3`,
`segmentLength = 1` the result is the 2×2 zero matrix. -/
theorem computeDelayMatrix_disabled_witness :
    computeDelayMatrix [[1, 2], [3, 4]] (-3) 1 = matMap (fun _ => 0) [[1, 2], [3, 4]] ∧
      computeDelayMatrix [[1, 2], [3, 4]] (-3) 1 = [[0, 0], [0, 0]] :=
  ⟨computeDelayMatrix_disabled [[1, 2], [3, 4]] (-3) 1 (by norm_num),
   by norm_num [computeDelayMatrix, matMap, List.replicate]⟩

/-- C8 counterexample: the claim fails for a `lengthMat` with a negative
entry: `computeDelayMatrix [[-1]] 1 1 = [[-1]]` has a negative entry. -/
theorem computeDelayMatrix_nonneg_cex :
    ¬ matAllNonneg (computeDelayMatrix [[-1]] 1 1) := by
  have h : computeDelayMatrix [[-1]] 1 1 = [[-1]] := by
    norm_num [computeDelayMatrix, matMap]
  rw [h]
  intro hall
  have := hall [-1] (List.mem_singleton.mpr rfl) (-1) (List.mem_singleton.mpr rfl)
  norm_num at this

/-- C8 (amended): if all entries of `lengthMat` are non-negative and
`segmentLength` is non-negative, then every entry of the delay matrix is
non-negative, for every `signalV`. -/
theorem computeDelayMatrix_nonneg (lengthMat : Mat) (signalV segmentLength : ℚ)
    (hL : matAllNonneg lengthMat) (hs : 0 ≤ segmentLength) :
    matAllNonneg (computeDelayMatrix lengthMat signalV segmentLength) := by
  intro row hrow x hx
  by_cases hv : 0 < signalV
  · simp only [computeDelayMatrix, matMap, if_pos hv] at hrow
    obtain ⟨r1, hr1, rfl⟩ := List.mem_map.mp hrow
    obtain ⟨r0, hr0, rfl⟩ := List.mem_map.mp hr1
    rw [List.map_map] at hx
    obtain ⟨x0, hx0, rfl⟩ := List.mem_map.mp hx
    exact div_nonneg (mul_nonneg (hL r0 hr0 x0 hx0) hs) hv.le
  · simp only [computeDelayMatrix, matMap, if_neg hv] at hrow
    obtain ⟨r0, hr0, rfl⟩ := List.mem_map.mp hrow
    obtain ⟨x0, hx0, rfl⟩ := List.mem_map.mp hx
    simp

/-- C8 witness: the amended statement at the concrete scenario
`lengthMat = [[0,10],[10,0]]`, `signalV = 20`, `segmentLength = 1`. -/
theorem computeDelayMatrix_nonneg_witness :
    matAllNonneg (computeDelayMatrix [[0, 10], [10, 0]] 20 1) :=
  computeDelayMatrix_nonneg [[0, 10], [10, 0]] 20 1 (by norm_num [matAllNonneg]) (by norm_num)

/-
The process-wide random generator (`np.random`).  numpy's Mersenne-Twister
implementation is not part of this repository; only its contract matters for
the claims: seeding fixes the whole stream, and each uniform draw advances the
generator state.
-/

/-- State of the process-wide pseudo-random generator. -/
structure NpRandom where
  state : ℕ

/-- The generator state produced by seeding with the integer `s`. -/
def npSeedMix (s : ℕ) : NpRandom :=
  ⟨s % 2 ^ 31⟩

/-- Modelled from the spec: `np.random.seed(seed)` — numpy code, absent from
the repository.  Seeding with an integer fixes the generator state from that
integer alone; seeding with `None` pulls fresh OS entropy, modelled here by
the ambient (caller-supplied) state standing for that entropy. -/
def np_seed : Option ℕ → NpRandom → NpRandom
  | some s, _ => npSeedMix s
  | none, g => g

/-- Modelled from the spec: one `Uniform(0,1)` draw of numpy's generator,
replaced by a deterministic linear-congruential step with the same contract
(a value in `[0,1)` plus the advanced state). -/
def npNext (g : NpRandom) : ℚ × NpRandom :=
  let s : ℕ := (g.state * 1103515245 + 12345) % 2 ^ 31
  (((s : ℚ) / 2 ^ 31), ⟨s⟩)

/-- `np.random.uniform(0, 1, (n, 1))`: `n` sequential draws of the generator,
returned with the final generator state. -/
def npUniformVec : ℕ → NpRandom → List ℚ × NpRandom
  | 0, g => ([], g)
  | n + 1, g =>
    let p := npNext g
    let q := npUniformVec n p.2
    (p.1 :: q.1, q.2)

/-- `np.fill_diagonal(m, 0)` applied row by row: row `i` has its `i`-th entry
set to 0 (`List.set` is a no-op past the row's length, as in numpy for
non-square shapes). -/
def zeroDiagAux : ℕ → Mat → Mat
  | _, [] => []
  | i, row :: rest => row.set i 0 :: zeroDiagAux (i + 1) rest

/-- The stored connectivity matrix: a copy of the input with zeroed diagonal. -/
def zeroDiag (m : Mat) : Mat :=
  zeroDiagAux 0 m

/-- The `dotdict` built by `loadDefaultParams`, with one field per key the
source assigns.  `lengthMat` is `Option Mat` because the source stores the
`Dmat` argument verbatim, which may be `None`. -/
structure WCParams where
  dt : ℚ
  duration : ℚ
  seed : Option ℕ
  signalV : ℚ
  K_gl : ℚ
  N : ℕ
  Cmat : Mat
  lengthMat : Option Mat
  tau_ou : ℚ
  sigma_ou : ℚ
  exc_ou_mean : ℚ
  inh_ou_mean : ℚ
  tau_exc : ℚ
  tau_inh : ℚ
  c_excexc : ℚ
  c_excinh : ℚ
  c_inhexc : ℚ
  c_inhinh : ℚ
  a_exc : ℚ
  a_inh : ℚ
  mu_exc : ℚ
  mu_inh : ℚ
  tau_adap : ℚ
  a_adap : ℚ
  a_a : ℚ
  mu_a : ℚ
  exc_ext : ℚ
  inh_ext : ℚ
  exc_init : List ℚ
  inh_init : List ℚ
  adap_init : List ℚ
  exc_ou : List ℚ
  inh_ou : List ℚ
  step_current : Bool
  from_second : ℚ
  to_second : ℚ
  ext_val : ℚ
  neg_from_second : ℚ
  neg_to_second : ℚ
  neg_ext_val : ℚ

/-- `loadDefaultParams(Cmat, Dmat, seed)` from the source.  The process-wide
generator state is passed in and the post-call state returned, reflecting that
`np.random.seed` and the three `np.random.uniform` draws act on shared state.
The `Cmat is None` branch yields a single node with 1×1 zero matrices; the
other branch stores a diagonal-zeroed copy of `Cmat`, sets `N` to its row
count, and stores `Dmat` verbatim as `lengthMat`.  The three
initial-condition vectors are drawn in the fixed source order
(`exc_init`, `inh_init`, `adap_init`), each scaled by 0.05. -/
def loadDefaultParams (Cmat : Option Mat) (Dmat : Option Mat) (seed : Option ℕ)
    (g : NpRandom) : WCParams × NpRandom :=
  let g0 := np_seed seed g
  let cfg : ℕ × Mat × Option Mat :=
    match Cmat with
    | none => (1, zerosMat 1 1, some (zerosMat 1 1))
    | some C => ((zeroDiag C).length, zeroDiag C, Dmat)
  let N := cfg.1
  let e := npUniformVec N g0
  let i := npUniformVec N e.2
  let a := npUniformVec N i.2
  ({ dt := 1/10
     duration := 2000
     seed := seed
     signalV := 20
     K_gl := 3/5
     N := N
     Cmat := cfg.2.1
     lengthMat := cfg.2.2
     tau_ou := 5
     sigma_ou := 0
     exc_ou_mean := 0
     inh_ou_mean := 0
     tau_exc := 5/2
     tau_inh := 15/4
     c_excexc := 16
     c_excinh := 15
     c_inhexc := 12
     c_inhinh := 3
     a_exc := 3/2
     a_inh := 3/2
     mu_exc := 3
     mu_inh := 3
     tau_adap := 100
     a_adap := 1/2
     a_a := 3
     mu_a := 2
     exc_ext := 0
     inh_ext := 0
     exc_init := e.1.map (fun x => 1/20 * x)
     inh_init := i.1.map (fun x => 1/20 * x)
     adap_init := a.1.map (fun x => 1/20 * x)
     exc_ou := List.replicate N 0
     inh_ou := List.replicate N 0
     step_current := false
     from_second := 2
     to_second := 1
     ext_val := 1
     neg_from_second := 5
     neg_to_second := 4
     neg_ext_val := -1 }, a.2)

/-- Setting index `n` of a list to 0 makes `getD n` return 0 (also past the
end, where `getD` falls back to the default 0). -/
theorem getD_set_zero (l : List ℚ) : ∀ n : ℕ, (l.set n 0).getD n 0 = 0 := by
  induction l with
  | nil => intro n; simp
  | cons a l ih =>
    intro n
    cases n with
    | zero => simp
    | succ n => simpa using ih n

/-- Diagonal entries of `zeroDiagAux k m`: the row at position `i` has its
`(k + i)`-th entry equal to 0. -/
theorem zeroDiagAux_diag (m : Mat) : ∀ k i : ℕ, getEntry (zeroDiagAux k m) i (k + i) = 0 := by
  induction m with
  | nil => intro k i; simp [zeroDiagAux, getEntry]
  | cons row rest ih =>
    intro k i
    cases i with
    | zero =>
      simpa [zeroDiagAux, getEntry] using getD_set_zero row k
    | succ i =>
      have h := ih (k + 1) i
      simpa [zeroDiagAux, getEntry, Nat.add_assoc, Nat.add_comm, Nat.add_left_comm] using h

/-- Every diagonal entry of `zeroDiag m` is 0. -/
theorem zeroDiag_diag (m : Mat) (i : ℕ) : getEntry (zeroDiag m) i i = 0 := by
  have h := zeroDiagAux_diag m 0 i
  simpa [zeroDiag] using h

/-- C3: for every input connectivity matrix, the stored `Cmat` has an all-zero
diagonal, whatever the input diagonal held; concretely,
`loadDefaultParams` on `[[1,1],[1,1]]` stores `Cmat = [[0,1],[1,0]]` and
`N = 2`. -/
theorem loadDefaultParams_diag_zero :
    (∀ (C : Mat) (D : Option Mat) (s : Option ℕ) (g : NpRandom) (i : ℕ),
        getEntry ((loadDefaultParams (some C) D s g).1.Cmat) i i = 0) ∧
      (loadDefaultParams (some [[1, 1], [1, 1]]) none none ⟨0⟩).1.Cmat = [[0, 1], [1, 0]] ∧
      (loadDefaultParams (some [[1, 1], [1, 1]]) none none ⟨0⟩).1.N = 2 := by
  refine ⟨fun C D s g i => ?_, rfl, rfl⟩
  show getEntry (zeroDiag C) i i = 0
  exact zeroDiag_diag C i

/-- C2 (code evaluated at the failing input): for input `Cmat = [[0,2],[2,0]]`
the stored matrix is the verbatim diagonal-zeroed copy `[[0,2],[2,0]]`, whose
maximum entry is 2 — not the max-normalized `[[0,1],[1,0]]` promised by the
docstring. -/
theorem loadDefaultParams_no_normalization :
    (loadDefaultParams (some [[0, 2], [2, 0]]) none (some 0) ⟨0⟩).1.Cmat = [[0, 2], [2, 0]] ∧
      (loadDefaultParams (some [[0, 2], [2, 0]]) none (some 0) ⟨0⟩).1.Cmat ≠
        [[0, 1], [1, 0]] := by
  constructor
  · rfl
  · intro h
    rw [show (loadDefaultParams (some [[0, 2], [2, 0]]) none (some 0) ⟨0⟩).1.Cmat
        = [[0, 2], [2, 0]] from rfl] at h
    norm_num at h

/-- C5: with a fixed integer seed, the three initial-condition vectors do not
depend on the pre-call generator state — two calls on the same arguments,
whatever generator states they start from, draw identical `exc_init`,
`inh_init` and `adap_init` (the seeding inside the call fixes the stream). -/
theorem loadDefaultParams_deterministic (Cmat Dmat : Option Mat) (s : ℕ)
    (g g' : NpRandom) :
    (loadDefaultParams Cmat Dmat (some s) g).1.exc_init =
        (loadDefaultParams Cmat Dmat (some s) g').1.exc_init ∧
      (loadDefaultParams Cmat Dmat (some s) g).1.inh_init =
        (loadDefaultParams Cmat Dmat (some s) g').1.inh_init ∧
      (loadDefaultParams Cmat Dmat (some s) g).1.adap_init =
        (loadDefaultParams Cmat Dmat (some s) g').1.adap_init :=
  ⟨rfl, rfl, rfl⟩

/-- C7 counterexample: two successive calls with identical arguments and the
same seed 42, the second starting from the generator state the first left
behind (no intervening external reseed), return *identical* — not
non-identical — initial-condition vectors, because each call reseeds the
process-wide generator itself. -/
theorem loadDefaultParams_repeat_identical :
    (loadDefaultParams (some [[0, 1], [1, 0]]) none (some 42)
          (loadDefaultParams (some [[0, 1], [1, 0]]) none (some 42) ⟨0⟩).2).1.exc_init =
        (loadDefaultParams (some [[0, 1], [1, 0]]) none (some 42) ⟨0⟩).1.exc_init ∧
      (loadDefaultParams (some [[0, 1], [1, 0]]) none (some 42)
          (loadDefaultParams (some [[0, 1], [1, 0]]) none (some 42) ⟨0⟩).2).1.inh_init =
        (loadDefaultParams (some [[0, 1], [1, 0]]) none (some 42) ⟨0⟩).1.inh_init ∧
      (loadDefaultParams (some [[0, 1], [1, 0]]) none (some 42)
          (loadDefaultParams (some [[0, 1], [1, 0]]) none (some 42) ⟨0⟩).2).1.adap_init =
        (loadDefaultParams (some [[0, 1], [1, 0]]) none (some 42) ⟨0⟩).1.adap_init :=
  ⟨rfl, rfl, rfl⟩

/-- C7 (amended): each call reseeds the generator internally, so for any fixed
integer seed, a second call with the same arguments made right after the
first (consuming the generator state the first left) yields initial-condition
vectors identical to the first call's.  The generator state is still mutated
by every call. -/
theorem loadDefaultParams_repeat_with_seed (Cmat Dmat : Option Mat) (s : ℕ)
    (g : NpRandom) :
    (loadDefaultParams Cmat Dmat (some s)
          (loadDefaultParams Cmat Dmat (some s) g).2).1.exc_init =
        (loadDefaultParams Cmat Dmat (some s) g).1.exc_init ∧
      (loadDefaultParams Cmat Dmat (some s)
          (loadDefaultParams Cmat Dmat (some s) g).2).1.inh_init =
        (loadDefaultParams Cmat Dmat (some s) g).1.inh_init ∧
      (loadDefaultParams Cmat Dmat (some s)
          (loadDefaultParams Cmat Dmat (some s) g).2).1.adap_init =
        (loadDefaultParams Cmat Dmat (some s) g).1.adap_init :=
  ⟨rfl, rfl, rfl⟩

/-- C6: with `Cmat = None`, whatever `Dmat` and `seed` are, the returned store
has `N = 1` and 1×1 zero matrices for both `Cmat` and `lengthMat`. -/
theorem loadDefaultParams_single_node (D : Option Mat) (s : Option ℕ) (g : NpRandom) :
    (loadDefaultParams none D s g).1.N = 1 ∧
      (loadDefaultParams none D s g).1.Cmat = [[0]] ∧
      (loadDefaultParams none D s g).1.lengthMat = some [[0]] :=
  ⟨rfl, rfl, rfl⟩

/-- C10: with a present `Cmat` and `Dmat = None`, the stored `lengthMat` is
`None` — stored verbatim, with no default zero matrix substituted, unlike the
`Cmat`-absent branch where `lengthMat` becomes a 1×1 zero matrix. -/
theorem loadDefaultParams_lengthMat_verbatim (C : Mat) (s : Option ℕ) (g : NpRandom) :
    (loadDefaultParams (some C) none s g).1.lengthMat = none ∧
      (loadDefaultParams none none s g).1.lengthMat = some [[0]] :=
  ⟨rfl, rfl⟩

/-
Aliasing model for the `Cmat` handling (lines 42–43 of the source):

    params.Cmat = Cmat.copy()  # coupling matrix
    np.fill_diagonal(params.Cmat, 0)  # no self connections

numpy arrays are mutable heap objects, so the pure embedding above cannot
express whether `fill_diagonal` hits the caller's array.  Here matrices live
in a heap addressed by natural-number references; `copy` allocates a fresh
cell and `fill_diagonal` mutates a cell in place, exactly as the two source
lines do.
-/

/-- A heap of numpy arrays: each cell holds one matrix, addressed by index. -/
structure Heap where
  cells : List Mat

/-- Dereference: the matrix stored at reference `r`. -/
def Heap.read (h : Heap) (r : ℕ) : Mat :=
  h.cells.getD r []

/-- `m.copy()` target allocation: append a fresh cell holding `m`'s value and
return its reference. -/
def Heap.alloc (h : Heap) (m : Mat) : Heap × ℕ :=
  (⟨h.cells ++ [m]⟩, h.cells.length)

/-- In-place update of the cell at reference `r`. -/
def Heap.write (h : Heap) (r : ℕ) (m : Mat) : Heap :=
  ⟨h.cells.set r m⟩

/-- Lines 42–43 of `loadDefaultParams` at heap level: copy the caller's
matrix at `cref` into a fresh cell, then `fill_diagonal` mutates the fresh
cell in place; the reference to the fresh cell is what the store keeps. -/
def storeCmat (h : Heap) (cref : ℕ) : Heap × ℕ :=
  let alloc1 := h.alloc (h.read cref)
  let h1 := alloc1.1
  let pref := alloc1.2
  let h2 := h1.write pref (zeroDiag (h1.read pref))
  (h2, pref)

/-- C9: storing the connectivity matrix leaves the caller's array unchanged —
the diagonal zeroing lands only on the freshly allocated copy, which is the
cell the parameter store references. -/
theorem storeCmat_frame (h : Heap) (cref : ℕ) (hc : cref < h.cells.length) :
    (storeCmat h cref).1.read cref = h.read cref ∧
      (storeCmat h cref).1.read (storeCmat h cref).2 = zeroDiag (h.read cref) := by
  have hne : h.cells.length ≠ cref := Nat.ne_of_gt hc
  have happ : (h.cells ++ [h.read cref])[cref]? = h.cells[cref]? :=
    List.getElem?_append_left hc
  have hlast : (h.cells ++ [h.read cref])[h.cells.length]? = some (h.read cref) :=
    List.getElem?_concat_length h.cells (h.read cref)
  constructor
  · show ((h.cells ++ [h.read cref]).set h.cells.length _).getD cref [] = h.cells.getD cref []
    rw [List.getD_eq_getElem?_getD, List.getElem?_set_ne hne, happ,
      List.getD_eq_getElem?_getD]
  · show ((h.cells ++ [h.read cref]).set h.cells.length
        (zeroDiag ((h.cells ++ [h.read cref]).getD h.cells.length []))).getD
          h.cells.length [] = zeroDiag (h.read cref)
    have hlen : h.cells.length < (h.cells ++ [h.read cref]).length := by
      simp
    rw [List.getD_eq_getElem?_getD, List.getElem?_set_self hlen,
      List.getD_eq_getElem?_getD, hlast]
    rfl

/-- C9 witness: on a one-cell heap holding `[[1,1],[1,1]]`, the caller's cell
still holds `[[1,1],[1,1]]` after the call, while the stored copy is the
diagonal-zeroed `[[0,1],[1,0]]`. -/
theorem storeCmat_frame_witness :
    (storeCmat ⟨[[[1, 1], [1, 1]]]⟩ 0).1.read 0 = Heap.read ⟨[[[1, 1], [1, 1]]]⟩ 0 ∧
      (storeCmat ⟨[[[1, 1], [1, 1]]]⟩ 0).1.read (storeCmat ⟨[[[1, 1], [1, 1]]]⟩ 0).2 =
        zeroDiag (Heap.read ⟨[[[1, 1], [1, 1]]]⟩ 0) :=
  storeCmat_frame ⟨[[[1, 1], [1, 1]]]⟩ 0 (by norm_num)
